import Mathlib

/-!
Verification development for the community-management backend.

Shallow embedding of the hierarchy validator, the role-cascade pre-save
hooks, the account-lockout helpers, the global error handler with its
audit write, and the in-memory sliding-window rate limiter.  The document
store is modelled as association lists from identifiers to documents.
Mongoose save semantics are embedded as: schema validation (the required
and enum validators) runs first, as a built-in hook ahead of all
user-defined pre-save hooks, and the user-defined pre-save hooks then run
in registration order before the document is persisted.
-/

/-- Association-list lookup by numeric id (models findById on a collection). -/
def lookupR {α : Type} (l : List (Nat × α)) (i : Nat) : Option α :=
  (l.find? (fun p => p.1 == i)).map (·.2)

/-- Update the record with the given id in place, leaving every other record
unchanged; a missing id is a no-op (models findByIdAndUpdate). -/
def updateUser {α : Type} (l : List (Nat × α)) (i : Nat) (f : α → α) : List (Nat × α) :=
  l.map (fun p => if p.1 == i then (p.1, f p.2) else p)

/-- Stored sector document: the fields the validator and hooks read. -/
structure SectorDoc where
  district : Nat
  deriving Repr, DecidableEq

/-- Stored cell document: the fields the validator and hooks read. -/
structure CellDoc where
  sector : Nat
  district : Nat
  deriving Repr, DecidableEq

/-- Stored intore-group document: its hierarchy references. -/
structure GroupDoc where
  cell : Nat
  sector : Nat
  district : Nat
  deriving Repr, DecidableEq

/-- Stored user document: role, denormalized hierarchy and group reference. -/
structure UserDoc where
  role : String
  hierDistrict : Option Nat
  hierSector : Option Nat
  hierCell : Option Nat
  intoreGroup : Option Nat
  deriving Repr, DecidableEq

/-- The document store. -/
structure DB where
  districts : List Nat
  sectors : List (Nat × SectorDoc)
  cells : List (Nat × CellDoc)
  groups : List (Nat × GroupDoc)
  users : List (Nat × UserDoc)
  deriving Repr, DecidableEq

/-- Result shape of the validators: isValid together with the error list. -/
structure HierResult where
  isValid : Bool
  errors : List String
  deriving Repr, DecidableEq

/-- The district_admin rule block of validateHierarchy. -/
def districtCheck (db : DB) (districtId : Option Nat) : List String :=
  match districtId with
  | none => ["District admin must be assigned to a district."]
  | some d =>
    if db.districts.contains d then [] else ["Invalid district ID."]

/-- The sector_admin rule block of validateHierarchy. -/
def sectorCheck (db : DB) (districtId sectorId : Option Nat) : List String :=
  match districtId, sectorId with
  | some d, some s =>
    match lookupR db.sectors s with
    | some sec =>
      if sec.district == d then []
      else ["Invalid sector or sector does not belong to the specified district."]
    | none => ["Invalid sector or sector does not belong to the specified district."]
  | _, _ => ["Sector admin must be assigned to a district and sector."]

/-- The shared cell_admin and member rule block of validateHierarchy; the
two role branches differ only in the missing-reference message. -/
def cellCheck (db : DB) (districtId sectorId cellId : Option Nat)
    (missingMsg : String) : List String :=
  match districtId, sectorId, cellId with
  | some d, some s, some c =>
    match lookupR db.cells c with
    | some cell =>
      if cell.sector == s && cell.district == d then []
      else ["Invalid cell or cell does not belong to the specified sector and district."]
    | none => ["Invalid cell or cell does not belong to the specified sector and district."]
  | _, _, _ => [missingMsg]

/-- validateHierarchy from the validation helpers module: evaluates the
role-specific rule blocks sequentially, accumulating error messages, and
finally returns isValid iff the accumulated list is empty.  The embedding
is a total function, so the result is always returned, never thrown. -/
def validateHierarchy (db : DB) (role : String)
    (districtId sectorId cellId : Option Nat) : HierResult :=
  if role = "super_admin" then { isValid := true, errors := [] }
  else
    let errors : List String :=
      (if role = "district_admin" then districtCheck db districtId else []) ++
      (if role = "sector_admin" then sectorCheck db districtId sectorId else []) ++
      (if role = "cell_admin" then
        cellCheck db districtId sectorId cellId
          "Cell admin must be assigned to a district, sector, and cell."
      else []) ++
      (if role = "member" then
        cellCheck db districtId sectorId cellId
          "Member must be assigned to a district, sector, and cell."
      else [])
    { isValid := errors.isEmpty, errors := errors }

/-- Claim reading of the district_admin requirement: d present and the
district exists. -/
def requiredDistrictOk (db : DB) (districtId : Option Nat) : Bool :=
  match districtId with
  | some d => db.districts.contains d
  | none => false

/-- Claim reading of the sector_admin requirement: d and s present, the
sector exists and its district is d. -/
def requiredSectorOk (db : DB) (districtId sectorId : Option Nat) : Bool :=
  match districtId, sectorId with
  | some d, some s =>
    match lookupR db.sectors s with
    | some sec => sec.district == d
    | none => false
  | _, _ => false

/-- Claim reading of the cell_admin and member requirement: d, s and c
present, the cell exists, its sector is s and its district is d. -/
def requiredCellOk (db : DB) (districtId sectorId cellId : Option Nat) : Bool :=
  match districtId, sectorId, cellId with
  | some d, some s, some c =>
    match lookupR db.cells c with
    | some cell => cell.sector == s && cell.district == d
    | none => false
  | _, _, _ => false

/-- Stated from the claim wording, for comparison with validateHierarchy:
the minimal required subset of (d, s, c) for the role is present and each
present required reference has a matching parent chain. -/
def hierarchyRequiredOk (db : DB) (role : String)
    (districtId sectorId cellId : Option Nat) : Bool :=
  if role = "super_admin" then true
  else if role = "district_admin" then requiredDistrictOk db districtId
  else if role = "sector_admin" then requiredSectorOk db districtId sectorId
  else if role = "cell_admin" || role = "member" then
    requiredCellOk db districtId sectorId cellId
  else true

/-- The user schema requires hierarchy.district exactly for roles other
than super_admin (the required function on the hierarchy.district path). -/
def userRequiresDistrict (role : String) : Bool :=
  role != "super_admin"

/-- Login-attempt tracking state of a user (the fields incLoginAttempts
reads and writes); times are millisecond timestamps. -/
structure AuthState where
  loginAttempts : Nat
  lockUntil : Option Int
  deriving Repr, DecidableEq

/-- The isLocked virtual: lockUntil is set and strictly after now. -/
def isLocked (now : Int) (u : AuthState) : Bool :=
  match u.lockUntil with
  | some t => decide (now < t)
  | none => false

/-- The guard of the first branch of incLoginAttempts: lockUntil is set and
strictly before now (the previous lock has expired). -/
def expiredLock (now : Int) (u : AuthState) : Bool :=
  match u.lockUntil with
  | some t => decide (t < now)
  | none => false

/-- incLoginAttempts: on an expired lock, reset loginAttempts to 1 and
clear lockUntil; otherwise increment loginAttempts and, when this reaches 5
and the account is not already locked, set lockUntil two hours ahead. -/
def incLoginAttempts (now : Int) (u : AuthState) : AuthState :=
  if expiredLock now u then
    { loginAttempts := 1, lockUntil := none }
  else
    { loginAttempts := u.loginAttempts + 1,
      lockUntil :=
        if 5 ≤ u.loginAttempts + 1 && !(isLocked now u) then
          some (now + 2 * 60 * 60 * 1000)
        else u.lockUntil }

/-- resetLoginAttempts: set loginAttempts to 0 and unset lockUntil. -/
def resetLoginAttempts (_u : AuthState) : AuthState :=
  { loginAttempts := 0, lockUntil := none }

/-- A cell document as submitted to save: hierarchy references may still be
absent, and the mongoose change-tracking flags are carried explicitly. -/
structure CellWrite where
  id : Nat
  name : String
  code : String
  sector : Option Nat
  district : Option Nat
  admin : Option Nat
  isNew : Bool
  modifiedAdmin : Bool
  deriving Repr, DecidableEq

/-- The required validators of the cell schema (name, code, sector,
district); a required string fails when empty, a required reference fails
when absent. -/
def cellValidate (c : CellWrite) : List String :=
  (if c.name = "" then ["Cell name is required"] else []) ++
  (if c.code = "" then ["Cell code is required"] else []) ++
  (if c.sector.isSome then [] else ["Sector is required"]) ++
  (if c.district.isSome then [] else ["District is required"])

/-- First cell pre-save hook: when admin was modified and is set, update
that user to role cell_admin with the cell's district, sector and id as
hierarchy (fire-and-forget findByIdAndUpdate, modelled as an immediate
store update; a missing user id is a no-op). -/
def cellAdminHook (db : DB) (c : CellWrite) : DB :=
  if c.modifiedAdmin then
    match c.admin with
    | some a =>
      { db with users := updateUser db.users a (fun u =>
          { u with role := "cell_admin",
                   hierDistrict := c.district,
                   hierSector := c.sector,
                   hierCell := some c.id }) }
    | none => db
  else db

/-- Second cell pre-save hook: for a new cell with a sector reference, look
the sector up and, when found, overwrite the district from it; when the
sector is not found the hook calls next() without an error. -/
def cellAutofillHook (db : DB) (c : CellWrite) : CellWrite :=
  if c.isNew then
    match c.sector with
    | some s =>
      match lookupR db.sectors s with
      | some sec => { c with district := some sec.district }
      | none => c
    | none => c
  else c

/-- Saving a cell: schema validation runs first (before any user hook);
then the admin-cascade hook, then the district auto-fill hook, in
registration order; finally the document is persisted. -/
def cellSave (db : DB) (c : CellWrite) : Except (List String) (DB × CellWrite) :=
  let errs := cellValidate c
  if errs.isEmpty then
    let db1 := cellAdminHook db c
    let c1 := cellAutofillHook db1 c
    .ok ({ db1 with
            cells := (c.id, { sector := c1.sector.getD 0,
                              district := c1.district.getD 0 }) :: db1.cells },
         c1)
  else .error errs

/-- An intore-group document as submitted to save. -/
structure GroupWrite where
  id : Nat
  name : String
  code : String
  gtype : String
  cell : Option Nat
  sector : Option Nat
  district : Option Nat
  leader : Option Nat
  isNew : Bool
  modifiedLeader : Bool
  deriving Repr, DecidableEq

/-- The required validators of the intore-group schema (name, code, type,
cell, sector, district). -/
def groupValidate (g : GroupWrite) : List String :=
  (if g.name = "" then ["Intore group name is required"] else []) ++
  (if g.code = "" then ["Intore group code is required"] else []) ++
  (if g.gtype = "" then ["Intore group type is required"] else []) ++
  (if g.cell.isSome then [] else ["Cell is required"]) ++
  (if g.sector.isSome then [] else ["Sector is required"]) ++
  (if g.district.isSome then [] else ["District is required"])

/-- First group pre-save hook: when leader was modified and is set, update
that user with the group id as intoreGroup reference (nothing else). -/
def groupLeaderHook (db : DB) (g : GroupWrite) : DB :=
  if g.modifiedLeader then
    match g.leader with
    | some l =>
      { db with users := updateUser db.users l (fun u =>
          { u with intoreGroup := some g.id }) }
    | none => db
  else db

/-- Second group pre-save hook: for a new group with a cell reference, look
the cell up and, when found, overwrite sector and district from it; when
the cell is not found the hook calls next() without an error. -/
def groupAutofillHook (db : DB) (g : GroupWrite) : GroupWrite :=
  if g.isNew then
    match g.cell with
    | some c =>
      match lookupR db.cells c with
      | some cd => { g with sector := some cd.sector, district := some cd.district }
      | none => g
    | none => g
  else g

/-- Saving an intore group: schema validation, then the leader hook, then
the hierarchy auto-fill hook, then persistence. -/
def groupSave (db : DB) (g : GroupWrite) : Except (List String) (DB × GroupWrite) :=
  let errs := groupValidate g
  if errs.isEmpty then
    let db1 := groupLeaderHook db g
    let g1 := groupAutofillHook db1 g
    .ok ({ db1 with
            groups := (g.id, { cell := g1.cell.getD 0,
                               sector := g1.sector.getD 0,
                               district := g1.district.getD 0 }) :: db1.groups },
         g1)
  else .error errs

/-- A district document as submitted to save (the fields its hook reads). -/
structure DistrictWrite where
  id : Nat
  admin : Option Nat
  modifiedAdmin : Bool
  deriving Repr, DecidableEq

/-- District pre-save hook: when admin was modified and is set, update that
user to role district_admin with the district id as hierarchy.district. -/
def districtAdminHook (db : DB) (d : DistrictWrite) : DB :=
  if d.modifiedAdmin then
    match d.admin with
    | some a =>
      { db with users := updateUser db.users a (fun u =>
          { u with role := "district_admin", hierDistrict := some d.id }) }
    | none => db
  else db

/-- A sector document as submitted to save (the fields its hook reads). -/
structure SectorWrite where
  id : Nat
  district : Option Nat
  admin : Option Nat
  modifiedAdmin : Bool
  deriving Repr, DecidableEq

/-- Sector pre-save hook: when admin was modified and is set, update that
user to role sector_admin with the sector district and id as hierarchy. -/
def sectorAdminHook (db : DB) (s : SectorWrite) : DB :=
  if s.modifiedAdmin then
    match s.admin with
    | some a =>
      { db with users := updateUser db.users a (fun u =>
          { u with role := "sector_admin",
                   hierDistrict := s.district,
                   hierSector := some s.id }) }
    | none => db
  else db

/-- A raised JS error as seen by the global error handler: its name, its
numeric-or-string code, its message, the validation sub-messages (for a
ValidationError) and an optional statusCode. -/
structure JsError where
  name : String
  code : Option String
  message : String
  valErrors : List String
  statusCode : Option Nat
  deriving Repr, DecidableEq

/-- A JSON response message: a plain string or a list of messages. -/
inductive JsonMsg where
  | str : String → JsonMsg
  | list : List String → JsonMsg
  deriving Repr, DecidableEq

/-- The error-normalization chain of the global error handler: starts from
the raised error (spread plus message), then reassigns status and message
for each recognized kind, in source order. -/
def normalizeError (err : JsError) : Option Nat × JsonMsg :=
  let e : Option Nat × JsonMsg := (err.statusCode, .str err.message)
  let e := if err.name = "CastError" then (some 404, .str "Resource not found") else e
  let e := if err.code = some "11000" then (some 400, .str "Duplicate field value entered") else e
  let e := if err.name = "ValidationError" then (some 400, .list err.valErrors) else e
  let e := if err.name = "JsonWebTokenError" then (some 401, .str "Invalid token") else e
  let e := if err.name = "TokenExpiredError" then (some 401, .str "Token has expired") else e
  let e := if err.code = some "LIMIT_FILE_SIZE" then (some 400, .str "File too large") else e
  let e := if err.code = some "LIMIT_UNEXPECTED_FILE" then (some 400, .str "Unexpected file field") else e
  e

/-- The audit-log document fields that carry schema validators. -/
structure AuditDoc where
  action : String
  resourceType : String
  resourceId : Option Nat
  performedBy : Option Nat
  severity : String
  deriving Repr, DecidableEq

/-- The resourceType enum of the audit-log schema. -/
def auditResourceTypes : List String :=
  ["user", "district", "sector", "cell", "intore_group", "activity", "media",
   "attendance", "chat", "notification", "report", "cultural_content"]

/-- The severity enum of the audit-log schema. -/
def auditSeverities : List String :=
  ["info", "warning", "error", "critical"]

/-- The audit-log schema validators: action, resourceId and performedBy are
required; resourceType is required and must be one of the enum values;
severity must be one of the enum values. -/
def auditValidate (d : AuditDoc) : List String :=
  (if d.action = "" then ["Action is required"] else []) ++
  (if d.resourceType = "" then ["Resource type is required"]
   else if auditResourceTypes.contains d.resourceType then []
   else ["resourceType: invalid enum value"]) ++
  (if d.resourceId.isSome then [] else ["Resource ID is required"]) ++
  (if d.performedBy.isSome then [] else ["Performer is required"]) ++
  (if auditSeverities.contains d.severity then [] else ["severity: invalid enum value"])

/-- AuditLog.logAction: builds the document and creates it; create runs the
schema validators and rejects when any fails. -/
def logAction (action resourceType : String) (resourceId performedBy : Option Nat)
    (severity : String) : Except (List String) AuditDoc :=
  let d : AuditDoc := { action := action, resourceType := resourceType,
                        resourceId := resourceId, performedBy := performedBy,
                        severity := severity }
  let errs := auditValidate d
  if errs.isEmpty then .ok d else .error errs

/-- The global error handler: normalizes the error, and when an
authenticated user is attached, awaits the audit write (action ERROR,
resourceType system, resourceId null, performedBy the user, severity error)
outside any try-catch.  A rejected audit write therefore propagates out of
the handler (the error value) and the response is never produced; when the
audit write is skipped or succeeds, the response carries the normalized
status (default 500) and message (default Server Error on an empty
string). -/
def errorHandler (err : JsError) (reqUser : Option Nat) :
    Except (List String) (Nat × JsonMsg) :=
  let e := normalizeError err
  let msg : JsonMsg :=
    match e.2 with
    | .str s => if s = "" then .str "Server Error" else .str s
    | .list l => .list l
  match reqUser with
  | some uid =>
    match logAction "ERROR" "system" none (some uid) "error" with
    | .error es => .error es
    | .ok _ => .ok (e.1.getD 500, msg)
  | none => .ok (e.1.getD 500, msg)

/-- A request hitting the sensitive-operation rate limiter: its derived key
(client address plus user id) and its arrival time in milliseconds. -/
structure RLEvent where
  key : String
  time : Int
  deriving Repr, DecidableEq

/-- The in-memory map from key to the list of admitted timestamps. -/
def RLMap : Type := List (String × List Int)

/-- Map lookup (Map.get). -/
def rlGet (m : RLMap) (k : String) : Option (List Int) :=
  (List.find? (fun p => p.1 == k) m).map (·.2)

/-- Map overwrite (Map.set). -/
def rlSet (m : RLMap) (k : String) (v : List Int) : RLMap :=
  (k, v) :: List.filter (fun p => p.1 != k) m

/-- One pass of the rate-limit middleware for one request: ensure the key
is present, prune the stored timestamps to those strictly inside the
window, reject with a 429 response (recording nothing) when max or more
remain, otherwise record the arrival time and pass the request through. -/
def rateLimitStep (windowMs : Int) (maxReq : Nat) (m : RLMap) (key : String)
    (now : Int) : Option Nat × RLMap :=
  let windowStart := now - windowMs
  let m1 := if (rlGet m key).isSome then m else rlSet m key []
  let userRequests := (rlGet m1 key).getD []
  let validRequests := userRequests.filter (fun t => decide (windowStart < t))
  if maxReq ≤ validRequests.length then
    (some 429, m1)
  else
    (none, rlSet m1 key (validRequests ++ [now]))

/-- Process a trace of requests through the rate limiter, returning the
final map and the sublist of admitted requests. -/
def rlRun (windowMs : Int) (maxReq : Nat) : RLMap → List RLEvent → RLMap × List RLEvent
  | m, [] => (m, [])
  | m, e :: es =>
    let r := rateLimitStep windowMs maxReq m e.key e.time
    let rest := rlRun windowMs maxReq r.2 es
    (rest.1, if r.1 = none then e :: rest.2 else rest.2)

/-- The timestamps of the events of a given key. -/
def timesOf (evs : List RLEvent) (k : String) : List Int :=
  (evs.filter (fun e => e.key == k)).map (·.time)

/-- How many events of the given key fall in the half-open sliding window
ending at T. -/
def windowCount (windowMs : Int) (k : String) (T : Int) (evs : List RLEvent) : Nat :=
  (timesOf evs k).countP (fun t => decide (T - windowMs < t) && decide (t ≤ T))

/-- The request times of a trace are non-decreasing, starting at or after
the given lower bound. -/
def timesMono : Int → List RLEvent → Prop
  | _, [] => True
  | b, e :: es => b ≤ e.time ∧ timesMono e.time es

/-- Invariant tying the limiter map to the history H of admitted requests,
where b bounds every time seen so far: all admitted times are at most b;
for every key, the stored timestamps and the admitted timestamps agree in
count above any cutoff not older than b minus the window; and every
sliding window already contains at most maxReq admitted requests per
key. -/
def RLInv (windowMs : Int) (maxReq : Nat) (m : RLMap) (H : List RLEvent)
    (b : Int) : Prop :=
  (∀ e ∈ H, e.time ≤ b) ∧
  (∀ (k : String) (c : Int), b - windowMs ≤ c →
    (timesOf H k).countP (fun t => decide (c < t)) =
      ((rlGet m k).getD []).countP (fun t => decide (c < t))) ∧
  (∀ (k : String) (T : Int), windowCount windowMs k T H ≤ maxReq)

/-- A small populated store: district 1, sector 2 under it, cell 3 under
both, and user 5, used to instantiate the theorems below. -/
def sampleDB : DB :=
  { districts := [1],
    sectors := [(2, { district := 1 })],
    cells := [(3, { sector := 2, district := 1 })],
    groups := [],
    users := [(5, { role := "member", hierDistrict := none, hierSector := none,
                    hierCell := none, intoreGroup := none })] }

/-- The KGL scenario store: district 1 (KGL) and sector 2 (NYA) under it. -/
def kglDB : DB :=
  { districts := [1], sectors := [(2, { district := 1 })], cells := [],
    groups := [], users := [] }

/-- New cell C1 referencing sector 2, with no district supplied. -/
def c1Cell : CellWrite :=
  { id := 3, name := "C1", code := "C1", sector := some 2, district := none,
    admin := none, isNew := true, modifiedAdmin := false }

/-- New group referencing cell 3, with no sector or district supplied. -/
def g1Group : GroupWrite :=
  { id := 4, name := "G", code := "G1", gtype := "dance", cell := some 3,
    sector := none, district := none, leader := none, isNew := true,
    modifiedLeader := false }

/-- New cell with admin 5 whose supplied district 7 differs from the
district 1 of its sector 2. -/
def mismatchCell : CellWrite :=
  { id := 10, name := "X", code := "XC", sector := some 2, district := some 7,
    admin := some 5, isNew := true, modifiedAdmin := true }

/-- New cell referencing the missing sector 99, with district supplied. -/
def danglingCell : CellWrite :=
  { id := 11, name := "Y", code := "YC", sector := some 99, district := some 1,
    admin := none, isNew := true, modifiedAdmin := false }

/-- New group referencing the missing cell 99, with sector and district
supplied. -/
def danglingGroup : GroupWrite :=
  { id := 12, name := "Z", code := "ZG", gtype := "music", cell := some 99,
    sector := some 2, district := some 1, leader := none, isNew := true,
    modifiedLeader := false }

/-- An existing (not new) cell 3 whose admin is being set to user 5. -/
def adminCell : CellWrite :=
  { id := 3, name := "C", code := "CC", sector := some 2, district := some 1,
    admin := some 5, isNew := false, modifiedAdmin := true }

/-- A group whose leader is being set to user 5. -/
def leaderGroup : GroupWrite :=
  { id := 20, name := "L", code := "LG", gtype := "dance", cell := some 3,
    sector := some 2, district := some 1, leader := some 5, isNew := true,
    modifiedLeader := true }

/-- A generic raised error with no recognized name or code. -/
def plainError : JsError :=
  { name := "Error", code := none, message := "boom", valErrors := [],
    statusCode := none }

/-- A short request trace for the rate limiter: three requests of one key
inside one window, then one more after the window has passed. -/
def sampleTrace : List RLEvent :=
  [{ key := "a", time := 0 }, { key := "a", time := 1 },
   { key := "a", time := 2 }, { key := "a", time := 12 }]

theorem districtCheck_isEmpty (db : DB) (d : Option Nat) :
    (districtCheck db d).isEmpty = requiredDistrictOk db d := by
  cases d with
  | none => rfl
  | some dId =>
    by_cases h : dId ∈ db.districts <;>
      simp [districtCheck, requiredDistrictOk, h]

theorem sectorCheck_isEmpty (db : DB) (d s : Option Nat) :
    (sectorCheck db d s).isEmpty = requiredSectorOk db d s := by
  cases d with
  | none => cases s <;> rfl
  | some dId =>
    cases s with
    | none => rfl
    | some sId =>
      cases hsec : lookupR db.sectors sId with
      | none => simp [sectorCheck, requiredSectorOk, hsec]
      | some sec =>
        cases h : sec.district == dId <;>
          simp [sectorCheck, requiredSectorOk, hsec, h]

theorem cellCheck_isEmpty (db : DB) (d s c : Option Nat) (msg : String) :
    (cellCheck db d s c msg).isEmpty = requiredCellOk db d s c := by
  cases d with
  | none => cases s <;> cases c <;> rfl
  | some dId =>
    cases s with
    | none => cases c <;> rfl
    | some sId =>
      cases c with
      | none => rfl
      | some cId =>
        cases hcell : lookupR db.cells cId with
        | none => simp [cellCheck, requiredCellOk, hcell]
        | some cell =>
          cases h : cell.sector == sId && cell.district == dId <;>
            simp [cellCheck, requiredCellOk, hcell, h]

theorem hier_isValid_eq_isEmpty (db : DB) (role : String)
    (d s c : Option Nat) :
    (validateHierarchy db role d s c).isValid =
      (validateHierarchy db role d s c).errors.isEmpty := by
  unfold validateHierarchy
  split <;> rfl

theorem hier_invalid_nonempty (db : DB) (role : String) (d s c : Option Nat)
    (h : (validateHierarchy db role d s c).isValid = false) :
    (validateHierarchy db role d s c).errors ≠ [] := by
  intro heq
  have h2 := hier_isValid_eq_isEmpty db role d s c
  rw [h, heq] at h2
  simp at h2

/-- Claim C1: for the five handled roles, validateHierarchy is valid iff
the minimal required subset of the (district, sector, cell) references for
the role is present with matching parent chains; an invalid result always
carries a non-empty error list; the (total) function always returns the
record, never throws. -/
theorem validateHierarchy_correct (db : DB) (role : String)
    (d s c : Option Nat)
    (hrole : role = "super_admin" ∨ role = "district_admin" ∨
             role = "sector_admin" ∨ role = "cell_admin" ∨ role = "member") :
    ((validateHierarchy db role d s c).isValid =
       hierarchyRequiredOk db role d s c) ∧
    ((validateHierarchy db role d s c).isValid = false →
       (validateHierarchy db role d s c).errors ≠ []) := by
  refine ⟨?_, hier_invalid_nonempty db role d s c⟩
  rcases hrole with rfl | rfl | rfl | rfl | rfl <;>
    simp [validateHierarchy, hierarchyRequiredOk, districtCheck_isEmpty,
          sectorCheck_isEmpty, cellCheck_isEmpty]

theorem validateHierarchy_correct_witness :
    ((validateHierarchy sampleDB "member" (some 1) (some 2) (some 3)).isValid =
       hierarchyRequiredOk sampleDB "member" (some 1) (some 2) (some 3)) ∧
    ((validateHierarchy sampleDB "member" (some 1) (some 2) (some 3)).isValid = false →
       (validateHierarchy sampleDB "member" (some 1) (some 2) (some 3)).errors ≠ []) :=
  validateHierarchy_correct sampleDB "member" (some 1) (some 2) (some 3)
    (by simp)

/-- Claim C9: for any role outside the five handled ones (in particular
public), no rule block applies, so validateHierarchy returns isValid true
with an empty error list for every combination of references, even though
the user schema separately requires hierarchy.district for every role
other than super_admin. -/
theorem validateHierarchy_unhandled_role_valid (db : DB) (role : String)
    (d s c : Option Nat)
    (h1 : role ≠ "super_admin") (h2 : role ≠ "district_admin")
    (h3 : role ≠ "sector_admin") (h4 : role ≠ "cell_admin")
    (h5 : role ≠ "member") :
    validateHierarchy db role d s c = { isValid := true, errors := [] } ∧
    userRequiresDistrict "public" = true := by
  constructor
  · simp [validateHierarchy, h1, h2, h3, h4, h5]
  · rfl

theorem validateHierarchy_unhandled_role_valid_witness :
    (validateHierarchy sampleDB "public" (some 99) none (some 7) =
      { isValid := true, errors := [] }) ∧
    userRequiresDistrict "public" = true :=
  validateHierarchy_unhandled_role_valid sampleDB "public" (some 99) none (some 7)
    (by decide) (by decide) (by decide) (by decide) (by decide)

/-- Claim C10: with lockUntil absent or in the future and the account not
already locked, reaching 5 attempts increments loginAttempts and sets
lockUntil two hours ahead, making isLocked true; with an expired lockUntil
the attempts reset to 1 and lockUntil is cleared; resetLoginAttempts always
zeroes the attempts and clears lockUntil. -/
theorem incLoginAttempts_lockout (now : Int) (u : AuthState) :
    ((u.lockUntil = none ∨ ∃ t, u.lockUntil = some t ∧ now < t) →
      5 ≤ u.loginAttempts + 1 → isLocked now u = false →
      incLoginAttempts now u =
        { loginAttempts := u.loginAttempts + 1,
          lockUntil := some (now + 2 * 60 * 60 * 1000) } ∧
      isLocked now (incLoginAttempts now u) = true) ∧
    (∀ t, u.lockUntil = some t → t < now →
      incLoginAttempts now u = { loginAttempts := 1, lockUntil := none }) ∧
    resetLoginAttempts u = { loginAttempts := 0, lockUntil := none } := by
  refine ⟨?_, ?_, rfl⟩
  · intro habs h5 hlock
    have hexp : expiredLock now u = false := by
      rcases habs with hnone | ⟨t, ht, hlt⟩
      · simp [expiredLock, hnone]
      · simp [expiredLock, ht]
        omega
    have hres : incLoginAttempts now u =
        { loginAttempts := u.loginAttempts + 1,
          lockUntil := some (now + 2 * 60 * 60 * 1000) } := by
      simp [incLoginAttempts, hexp, hlock, h5]
    refine ⟨hres, ?_⟩
    rw [hres]
    simp [isLocked]
  · intro t ht hlt
    have hexp : expiredLock now u = true := by
      simp [expiredLock, ht]
      omega
    simp [incLoginAttempts, hexp]

theorem incLoginAttempts_lockout_witness :
    (incLoginAttempts 1000 { loginAttempts := 4, lockUntil := none } =
      { loginAttempts := 5, lockUntil := some 7201000 } ∧
     isLocked 1000 (incLoginAttempts 1000 { loginAttempts := 4, lockUntil := none }) = true) ∧
    (incLoginAttempts 1000 { loginAttempts := 7, lockUntil := some 500 } =
      { loginAttempts := 1, lockUntil := none }) ∧
    resetLoginAttempts { loginAttempts := 7, lockUntil := some 500 } =
      { loginAttempts := 0, lockUntil := none } :=
  ⟨by
    have h := (incLoginAttempts_lockout 1000 { loginAttempts := 4, lockUntil := none }).1
      (Or.inl rfl) (by decide) (by decide)
    simpa using h,
   (incLoginAttempts_lockout 1000 { loginAttempts := 7, lockUntil := some 500 }).2.1
      500 rfl (by decide),
   (incLoginAttempts_lockout 1000 { loginAttempts := 7, lockUntil := some 500 }).2.2⟩

theorem updateUser_idem {α : Type} (l : List (Nat × α)) (i : Nat) (f : α → α)
    (hf : ∀ u, f (f u) = f u) :
    updateUser (updateUser l i f) i f = updateUser l i f := by
  unfold updateUser
  rw [List.map_map]
  apply List.map_congr_left
  intro p _
  by_cases h : p.1 = i
  · simp [h, hf]
  · simp [h]

/-- Claim C6: each admin-cascade hook is idempotent: running it a second
time on its own output, with the same parent document, leaves every user
record (role and hierarchy fields included) unchanged. -/
theorem cascade_hooks_idempotent :
    (∀ (db : DB) (d : DistrictWrite),
      districtAdminHook (districtAdminHook db d) d = districtAdminHook db d) ∧
    (∀ (db : DB) (s : SectorWrite),
      sectorAdminHook (sectorAdminHook db s) s = sectorAdminHook db s) ∧
    (∀ (db : DB) (c : CellWrite),
      cellAdminHook (cellAdminHook db c) c = cellAdminHook db c) := by
  refine ⟨?_, ?_, ?_⟩
  · intro db d
    cases hm : d.modifiedAdmin
    · simp [districtAdminHook, hm]
    · cases ha : d.admin with
      | none => simp [districtAdminHook, hm, ha]
      | some a =>
        simp [districtAdminHook, hm, ha]
        exact updateUser_idem _ _ _ (fun u => rfl)
  · intro db s
    cases hm : s.modifiedAdmin
    · simp [sectorAdminHook, hm]
    · cases ha : s.admin with
      | none => simp [sectorAdminHook, hm, ha]
      | some a =>
        simp [sectorAdminHook, hm, ha]
        exact updateUser_idem _ _ _ (fun u => rfl)
  · intro db c
    cases hm : c.modifiedAdmin
    · simp [cellAdminHook, hm]
    · cases ha : c.admin with
      | none => simp [cellAdminHook, hm, ha]
      | some a =>
        simp [cellAdminHook, hm, ha]
        exact updateUser_idem _ _ _ (fun u => rfl)

theorem lookupR_updateUser {α : Type} (l : List (Nat × α)) (i : Nat) (f : α → α) :
    lookupR (updateUser l i f) i = (lookupR l i).map f := by
  induction l with
  | nil => rfl
  | cons p rest ih =>
    by_cases h : p.1 = i
    · simp [updateUser, lookupR, List.find?_cons, h]
    · have hstep : lookupR (updateUser (p :: rest) i f) i =
          lookupR (updateUser rest i f) i := by
        simp [updateUser, lookupR, List.find?_cons, h]
      rw [hstep, ih]
      simp [lookupR, List.find?_cons, h]

/-- Claim C7: saving an intore group whose leader was set to an existing
user updates that user with the group id as intoreGroup reference and
leaves the role and all hierarchy fields unchanged. -/
theorem groupSave_leader_sets_intoreGroup (db : DB) (g : GroupWrite) (u : Nat)
    (udoc : UserDoc) (hmod : g.modifiedLeader = true) (hld : g.leader = some u)
    (hu : lookupR db.users u = some udoc) (hval : groupValidate g = []) :
    (groupSave db g).toOption.map (fun r => lookupR r.1.users u) =
      some (some { udoc with intoreGroup := some g.id }) := by
  simp only [groupSave, hval, List.isEmpty_nil, if_true]
  simp [Except.toOption, groupLeaderHook, hmod, hld, lookupR_updateUser, hu]

theorem groupSave_leader_sets_intoreGroup_witness :
    (groupSave sampleDB leaderGroup).toOption.map (fun r => lookupR r.1.users 5) =
      some (some { role := "member", hierDistrict := none, hierSector := none,
                   hierCell := none, intoreGroup := some 20 }) :=
  groupSave_leader_sets_intoreGroup sampleDB leaderGroup 5
    { role := "member", hierDistrict := none, hierSector := none,
      hierCell := none, intoreGroup := none }
    rfl rfl rfl rfl

theorem lookupR_cons_self {α : Type} (l : List (Nat × α)) (i : Nat) (v : α) :
    lookupR ((i, v) :: l) i = some v := by
  simp [lookupR, List.find?_cons]

/-- Claim C5, counterexample: a new cell whose supplied district 7 differs
from the district 1 of its sector 2 is saved with admin user 5; the
persisted cell carries the auto-filled district 1, but the user record
read afterwards carries hierarchy.district 7, because the admin-cascade
hook runs before the district auto-fill hook; so the user hierarchy does
not equal the saved cell's own chain. -/
theorem cellSave_admin_hierarchy_mismatch :
    ((cellSave sampleDB mismatchCell).toOption.map
        (fun r => (lookupR r.1.users 5, lookupR r.1.cells 10)) =
      some (some { role := "cell_admin", hierDistrict := some 7,
                   hierSector := some 2, hierCell := some 10,
                   intoreGroup := none },
            some { sector := 2, district := 1 })) ∧
    (some 7 : Option Nat) ≠ some 1 := by
  exact ⟨rfl, by decide⟩

/-- Claim C5, amended: for a save of an already-persisted (not new) cell
with admin modified and set to an existing user, reading the user yields
role cell_admin and hierarchy district, sector and cell equal to the
saved cell's own district, sector and id.  (For a newly created cell the
user receives the district value the cell carried before the auto-fill
hook, which can differ from the persisted district.) -/
theorem cellSave_admin_cascades_existing (db : DB) (c : CellWrite) (u sv dv : Nat)
    (udoc : UserDoc) (hmod : c.modifiedAdmin = true) (hadm : c.admin = some u)
    (hnew : c.isNew = false) (hs : c.sector = some sv) (hd : c.district = some dv)
    (hval : cellValidate c = []) (hu : lookupR db.users u = some udoc) :
    (cellSave db c).toOption.map
        (fun r => (lookupR r.1.users u, lookupR r.1.cells c.id)) =
      some (some { udoc with role := "cell_admin", hierDistrict := some dv,
                             hierSector := some sv, hierCell := some c.id },
            some { sector := sv, district := dv }) := by
  obtain ⟨cid, cname, ccode, csec, cdis, cadm, cnew, cmod⟩ := c
  dsimp only at hmod hadm hnew hs hd ⊢
  subst hmod hadm hnew hs hd
  simp only [cellSave, hval, List.isEmpty_nil, if_true]
  simp [Except.toOption, cellAdminHook, cellAutofillHook, lookupR_updateUser,
        hu, lookupR_cons_self]

theorem cellSave_admin_cascades_existing_witness :
    (cellSave sampleDB adminCell).toOption.map
        (fun r => (lookupR r.1.users 5, lookupR r.1.cells adminCell.id)) =
      some (some { role := "cell_admin", hierDistrict := some 1,
                   hierSector := some 2, hierCell := some 3,
                   intoreGroup := none },
            some { sector := 2, district := 1 }) :=
  cellSave_admin_cascades_existing sampleDB adminCell 5 2 1
    { role := "member", hierDistrict := none, hierSector := none,
      hierCell := none, intoreGroup := none }
    rfl rfl rfl rfl rfl rfl rfl

/-- Claim C3, counterexample: creating a cell under the missing sector 99
(with a district supplied) and a group under the missing cell 99 (with
sector and district supplied) both succeed; the create is not rejected
with any ReferenceError-class failure when the referenced parent does not
exist. -/
theorem cellSave_dangling_parent_not_rejected :
    (cellSave sampleDB danglingCell).toOption.isSome = true ∧
    (groupSave sampleDB danglingGroup).toOption.isSome = true := by
  decide

/-- Claim C3, amended: when the referenced parent of a new cell (its
sector) or of a new group (its cell) does not exist, the auto-fill hook
silently skips propagation and the save is not rejected: if schema
validation passed (and no admin or leader change fires the other hook),
the save succeeds, persists the submitted reference values unchanged, and
modifies no user record. -/
theorem autofill_missing_parent_skips (db : DB) (c : CellWrite)
    (g : GroupWrite) (sv cv : Nat) :
    (c.isNew = true → c.sector = some sv → lookupR db.sectors sv = none →
      cellValidate c = [] → c.modifiedAdmin = false →
      cellSave db c =
        .ok ({ db with cells :=
                (c.id, { sector := sv, district := c.district.getD 0 }) :: db.cells },
             c)) ∧
    (g.isNew = true → g.cell = some cv → lookupR db.cells cv = none →
      groupValidate g = [] → g.modifiedLeader = false →
      groupSave db g =
        .ok ({ db with groups :=
                (g.id, { cell := cv, sector := g.sector.getD 0,
                         district := g.district.getD 0 }) :: db.groups },
             g)) := by
  constructor
  · intro hnew hs hlook hval hmod
    simp only [cellSave, hval, List.isEmpty_nil, if_true]
    simp [cellAdminHook, cellAutofillHook, hnew, hs, hlook, hmod]
  · intro hnew hc hlook hval hmod
    simp only [groupSave, hval, List.isEmpty_nil, if_true]
    simp [groupLeaderHook, groupAutofillHook, hnew, hc, hlook, hmod]

theorem autofill_missing_parent_skips_witness :
    (cellSave sampleDB danglingCell =
      .ok ({ sampleDB with cells :=
              (danglingCell.id, { sector := 99, district := 1 }) :: sampleDB.cells },
           danglingCell)) ∧
    (groupSave sampleDB danglingGroup =
      .ok ({ sampleDB with groups :=
              (danglingGroup.id, { cell := 99, sector := 2, district := 1 })
                :: sampleDB.groups },
           danglingGroup)) :=
  ⟨(autofill_missing_parent_skips sampleDB danglingCell danglingGroup 99 99).1
      rfl rfl rfl rfl rfl,
   (autofill_missing_parent_skips sampleDB danglingCell danglingGroup 99 99).2
      rfl rfl rfl rfl rfl⟩

/-- Claim C4, evaluation at the failing input: in the KGL store, creating
cell C1 with only a sector reference is rejected by the required validator
on district — which runs before the auto-fill pre-save hook — so no cell
with auto-filled district KGL is ever created; the analogous group create
with only a cell reference fails on its required sector and district. -/
theorem create_without_district_rejected :
    cellSave kglDB c1Cell = .error ["District is required"] ∧
    groupSave kglDB g1Group = .error ["Sector is required", "District is required"] := by
  exact ⟨rfl, rfl⟩

/-- Claim C2, evaluation: for every raised error and every authenticated
user, the error handler awaits the audit write outside any try-catch, and
that write always rejects (resourceType system is not in the audit enum
and resourceId is null though required), so the handler propagates the
audit failure and never produces the response carrying the original
status and message; with no authenticated user the response is produced. -/
theorem errorHandler_audit_failure_masks_response (err : JsError) (uid : Nat) :
    errorHandler err (some uid) =
      .error ["resourceType: invalid enum value", "Resource ID is required"] ∧
    errorHandler plainError none = .ok (500, .str "boom") := by
  exact ⟨rfl, rfl⟩

theorem rlGet_rlSet_self (m : RLMap) (k : String) (v : List Int) :
    rlGet (rlSet m k v) k = some v := by
  simp [rlGet, rlSet, List.find?_cons]

theorem find?_filter_ne (m : RLMap) (k k2 : String) (h : k2 ≠ k) :
    List.find? (fun p => p.1 == k2) (List.filter (fun p => p.1 != k) m) =
      List.find? (fun p => p.1 == k2) m := by
  induction m with
  | nil => rfl
  | cons q rest ih =>
    by_cases hq : q.1 = k
    · simp [List.filter_cons, List.find?_cons, hq, Ne.symm h, ih]
    · by_cases hq2 : q.1 = k2 <;>
        simp [List.filter_cons, List.find?_cons, hq, hq2, h, ih]

theorem rlGet_rlSet_other (m : RLMap) (k k2 : String) (v : List Int)
    (h : k2 ≠ k) : rlGet (rlSet m k v) k2 = rlGet m k2 := by
  simp only [rlGet, rlSet, List.find?_cons]
  have hk : ((k, v).1 == k2) = false := by simp [Ne.symm h]
  rw [hk]
  rw [find?_filter_ne m k k2 h]

theorem sVal_ensure (m : RLMap) (key : String) : ∀ k : String,
    (rlGet (if (rlGet m key).isSome then m else rlSet m key []) k).getD [] =
      (rlGet m k).getD [] := by
  intro k
  by_cases hs : (rlGet m key).isSome
  · rw [if_pos hs]
  · rw [if_neg hs]
    by_cases hk : k = key
    · subst hk
      rw [rlGet_rlSet_self]
      cases hg : rlGet m k with
      | none => rfl
      | some v => rw [hg] at hs; simp at hs
    · rw [rlGet_rlSet_other m key k [] hk]

theorem timesOf_append (H1 H2 : List RLEvent) (k : String) :
    timesOf (H1 ++ H2) k = timesOf H1 k ++ timesOf H2 k := by
  simp [timesOf]

theorem mem_timesOf {t : Int} {H : List RLEvent} {k : String}
    (h : t ∈ timesOf H k) : ∃ e ∈ H, e.time = t := by
  simp only [timesOf, List.mem_map, List.mem_filter] at h
  obtain ⟨e, ⟨he, _⟩, ht⟩ := h
  exact ⟨e, he, ht⟩

theorem windowCount_append_single (w : Int) (k : String) (T : Int)
    (H : List RLEvent) (e : RLEvent) :
    windowCount w k T (H ++ [e]) =
      windowCount w k T H +
        (if e.key == k && (decide (T - w < e.time) && decide (e.time ≤ T))
         then 1 else 0) := by
  unfold windowCount
  rw [timesOf_append, List.countP_append]
  congr 1
  cases hk : (e.key == k)
  · simp [timesOf, hk]
  · simp [timesOf, hk, List.countP_singleton, Bool.and_assoc]

theorem rl_step_inv (w : Int) (mx : Nat) (m : RLMap) (H : List RLEvent)
    (b : Int) (key : String) (now : Int) (hb : b ≤ now)
    (hinv : RLInv w mx m H b) :
    RLInv w mx (rateLimitStep w mx m key now).2
      (if (rateLimitStep w mx m key now).1 = none
       then H ++ [{ key := key, time := now }] else H) now := by
  obtain ⟨hHb, hCnt, hWin⟩ := hinv
  have hm1get := sVal_ensure m key
  by_cases hrej : mx ≤
      (((rlGet (if (rlGet m key).isSome then m else rlSet m key []) key).getD []).filter
        (fun t => decide (now - w < t))).length
  · -- the request is rejected: map and history unchanged, bound carried over
    have hstep : rateLimitStep w mx m key now =
        (some 429, if (rlGet m key).isSome then m else rlSet m key []) := by
      unfold rateLimitStep
      rw [if_pos hrej]
    rw [hstep]
    simp only [reduceCtorEq, if_false]
    refine ⟨fun e he => le_trans (hHb e he) hb, ?_, hWin⟩
    intro k c hc
    rw [hm1get k]
    exact hCnt k c (by omega)
  · -- the request is admitted: now is appended to the key list and history
    have hstep : rateLimitStep w mx m key now =
        (none,
         rlSet (if (rlGet m key).isSome then m else rlSet m key []) key
           ((((rlGet (if (rlGet m key).isSome then m else rlSet m key []) key).getD []).filter
              (fun t => decide (now - w < t))) ++ [now])) := by
      unfold rateLimitStep
      rw [if_neg hrej]
    rw [hstep]
    simp only [if_true]
    refine ⟨?_, ?_, ?_⟩
    · intro e he
      rcases List.mem_append.mp he with h1 | h2
      · exact le_trans (hHb e h1) hb
      · rw [List.mem_singleton.mp h2]
    · intro k c hc
      by_cases hk : k = key
      · subst hk
        rw [timesOf_append]
        have hsing : timesOf [{ key := k, time := now }] k = [now] := by
          simp [timesOf]
        rw [hsing, List.countP_append, rlGet_rlSet_self, Option.getD_some,
            List.countP_append]
        have hVS : (((rlGet (if (rlGet m k).isSome then m else rlSet m k []) k).getD []).filter
              (fun t => decide (now - w < t))).countP (fun t => decide (c < t)) =
            ((rlGet m k).getD []).countP (fun t => decide (c < t)) := by
          rw [List.countP_filter, hm1get k]
          apply List.countP_congr
          intro t _
          constructor
          · intro hh
            exact (Bool.and_eq_true .. |>.mp hh).1
          · intro hh
            refine Bool.and_eq_true .. |>.mpr ⟨hh, ?_⟩
            have h1 : c < t := of_decide_eq_true hh
            exact decide_eq_true (by omega)
        rw [hVS]
        have hHS : (timesOf H k).countP (fun t => decide (c < t)) =
            ((rlGet m k).getD []).countP (fun t => decide (c < t)) :=
          hCnt k c (by omega)
        rw [hHS]
      · rw [timesOf_append]
        have hsing : timesOf [{ key := key, time := now }] k = [] := by
          simp [timesOf, Ne.symm hk]
        rw [hsing, List.append_nil, rlGet_rlSet_other _ _ _ _ hk, hm1get k]
        exact hCnt k c (by omega)
    · intro k T
      rw [windowCount_append_single]
      cases hbool : (({ key := key, time := now } : RLEvent).key == k &&
          (decide (T - w < now) && decide (now ≤ T)))
      · rw [if_neg (by simp [hbool])]
        simpa using hWin k T
      · rw [if_pos (by simp [hbool])]
        have hparts := Bool.and_eq_true .. |>.mp hbool
        have hkk : key = k := by
          have := hparts.1
          simpa using this
        subst hkk
        have hparts2 := Bool.and_eq_true .. |>.mp hparts.2
        have hTw : T - w < now := of_decide_eq_true hparts2.1
        have hTn : now ≤ T := of_decide_eq_true hparts2.2
        have h1 : windowCount w key T H =
            (timesOf H key).countP (fun t => decide (T - w < t)) := by
          unfold windowCount
          apply List.countP_congr
          intro t ht
          obtain ⟨e, he, rfl⟩ := mem_timesOf ht
          have hbnd : e.time ≤ b := hHb e he
          constructor
          · intro hh
            exact (Bool.and_eq_true .. |>.mp hh).1
          · intro hh
            exact Bool.and_eq_true .. |>.mpr ⟨hh, decide_eq_true (by omega)⟩
        have h2 : (timesOf H key).countP (fun t => decide (T - w < t)) =
            ((rlGet m key).getD []).countP (fun t => decide (T - w < t)) :=
          hCnt key (T - w) (by omega)
        have h3 : ((rlGet m key).getD []).countP (fun t => decide (T - w < t)) ≤
            ((rlGet m key).getD []).countP (fun t => decide (now - w < t)) := by
          apply List.countP_mono_left
          intro t _ hh
          have h4 : T - w < t := of_decide_eq_true hh
          exact decide_eq_true (by omega)
        have h5 : ((rlGet m key).getD []).countP (fun t => decide (now - w < t)) =
            (((rlGet m key).getD []).filter (fun t => decide (now - w < t))).length :=
          List.countP_eq_length_filter ..
        have h6 : (((rlGet m key).getD []).filter
            (fun t => decide (now - w < t))).length < mx := by
          have h7 := Nat.lt_of_not_le hrej
          rwa [hm1get key] at h7
        omega

theorem rl_inv_init (w : Int) (mx : Nat) (b : Int) : RLInv w mx [] [] b := by
  refine ⟨by simp, ?_, ?_⟩
  · intro k c _
    rfl
  · intro k T
    simp [windowCount, timesOf]

theorem rl_run_bound (w : Int) (mx : Nat) (evs : List RLEvent) :
    ∀ (m : RLMap) (H : List RLEvent) (b : Int),
      timesMono b evs → RLInv w mx m H b →
      ∀ (k : String) (T : Int),
        windowCount w k T (H ++ (rlRun w mx m evs).2) ≤ mx := by
  induction evs with
  | nil =>
    intro m H b _ hinv k T
    simpa [rlRun] using hinv.2.2 k T
  | cons e rest ih =>
    intro m H b hmono hinv k T
    obtain ⟨hbe, hmono2⟩ := hmono
    have hstep := rl_step_inv w mx m H b e.key e.time hbe hinv
    cases hout : (rateLimitStep w mx m e.key e.time).1 with
    | none =>
      rw [hout] at hstep
      rw [if_pos rfl] at hstep
      have hrun : (rlRun w mx m (e :: rest)).2 =
          e :: (rlRun w mx (rateLimitStep w mx m e.key e.time).2 rest).2 := by
        simp [rlRun, hout]
      rw [hrun, show H ++ e :: (rlRun w mx (rateLimitStep w mx m e.key e.time).2 rest).2 =
            (H ++ [e]) ++ (rlRun w mx (rateLimitStep w mx m e.key e.time).2 rest).2 by simp]
      exact ih (rateLimitStep w mx m e.key e.time).2 (H ++ [e]) e.time hmono2 hstep k T
    | some code =>
      rw [hout] at hstep
      rw [if_neg (by simp)] at hstep
      have hrun : (rlRun w mx m (e :: rest)).2 =
          (rlRun w mx (rateLimitStep w mx m e.key e.time).2 rest).2 := by
        simp [rlRun, hout]
      rw [hrun]
      exact ih (rateLimitStep w mx m e.key e.time).2 H e.time hmono2 hstep k T

/-- Claim C8: over any trace of requests with non-decreasing arrival
times, the limiter admits at most maxReq requests per key inside every
sliding window of windowMs milliseconds; a request finding maxReq or more
stored timestamps inside the window is answered 429 and its timestamp is
not recorded (the stored list is unchanged, beyond ensuring the key is
present); an admitted request stores its own timestamp appended to the
lazily pruned list of timestamps still inside the window. -/
theorem rateLimit_sliding_window_bound (w : Int) (mx : Nat)
    (evs : List RLEvent) (b : Int) (hmono : timesMono b evs) :
    (∀ (k : String) (T : Int),
      windowCount w k T (rlRun w mx [] evs).2 ≤ mx) ∧
    (∀ (m : RLMap) (key : String) (now : Int),
      mx ≤ (((rlGet m key).getD []).filter (fun t => decide (now - w < t))).length →
      rateLimitStep w mx m key now =
        (some 429, if (rlGet m key).isSome then m else rlSet m key [])) ∧
    (∀ (m : RLMap) (key : String) (now : Int),
      (((rlGet m key).getD []).filter (fun t => decide (now - w < t))).length < mx →
      rateLimitStep w mx m key now =
        (none,
         rlSet (if (rlGet m key).isSome then m else rlSet m key []) key
           ((((rlGet m key).getD []).filter (fun t => decide (now - w < t))) ++ [now]))) := by
  refine ⟨?_, ?_, ?_⟩
  · intro k T
    have h := rl_run_bound w mx evs [] [] b hmono (rl_inv_init w mx b) k T
    simpa using h
  · intro m key now hge
    have hlen : mx ≤
        (((rlGet (if (rlGet m key).isSome then m else rlSet m key []) key).getD []).filter
          (fun t => decide (now - w < t))).length := by
      rw [sVal_ensure m key key]
      exact hge
    unfold rateLimitStep
    rw [if_pos hlen]
  · intro m key now hlt
    have hlen : ¬ mx ≤
        (((rlGet (if (rlGet m key).isSome then m else rlSet m key []) key).getD []).filter
          (fun t => decide (now - w < t))).length := by
      rw [sVal_ensure m key key]
      omega
    unfold rateLimitStep
    rw [if_neg hlen]
    rw [sVal_ensure m key key]

theorem rateLimit_sliding_window_bound_witness :
    windowCount 10 "a" 2 (rlRun 10 2 [] sampleTrace).2 ≤ 2 ∧
    rateLimitStep 10 2 [("a", [0, 1])] "a" 2 = (some 429, [("a", [0, 1])]) ∧
    rateLimitStep 10 2 [("a", [0])] "a" 3 = (none, [("a", [0, 3])]) := by
  have hmono : timesMono 0 sampleTrace := by
    simp [timesMono, sampleTrace]
  refine ⟨(rateLimit_sliding_window_bound 10 2 sampleTrace 0 hmono).1 "a" 2, ?_, ?_⟩
  · exact (rateLimit_sliding_window_bound 10 2 sampleTrace 0 hmono).2.1
      [("a", [0, 1])] "a" 2 (by decide)
  · exact (rateLimit_sliding_window_bound 10 2 sampleTrace 0 hmono).2.2
      [("a", [0])] "a" 3 (by decide)
